import Mathlib

/-
Verification of the fetch-artifacts manifest/cache pipeline.

The definitions below are a shallow embedding of the Python sources
(fetch_artifacts/artifacts.py and fetch_artifacts/create.py):

* The cache state of one artifact directory is modelled by `DirState`
  (directory present / completion marker present / extracted content).
  Extracted archive content is abstracted to a token (`Content`),
  since the claims only compare contents for equality.
* Network and archive extraction are external collaborators: the bytes a
  source actually delivers are modelled by `SourceOutcome` (the sha256
  hexdigest of the downloaded file, and the extraction result: the
  normalized tree, or failure).  The pipeline code itself is translated
  step for step.
* Fatal errors are modelled by the message strings the Python code builds
  (RuntimeError / KeyError / ValueError payloads), structured errors by
  inductive types mirroring which exception is raised where.
* Filesystem writes performed by a source attempt are made explicit as a
  list of primitive operations (`FsOp`), exactly in the order the code
  performs them, so ordering claims about the completion marker are
  statable.
-/

namespace FetchArtifacts

/-- One download source of an artifact: `DownloadInfo(url, sha256)` from
artifacts.py; `sha256` may be the empty string (no verification). -/
structure DownloadInfo where
  url : String
  sha256 : String
deriving DecidableEq

/-- The extracted (and normalized) tree an archive yields, abstracted to a
token; the claims only ever compare artifact contents for equality. -/
abbrev Content := String

/-- One artifact entry from Artifacts.toml (`ArtifactEntry` in
artifacts.py), restricted to the fields the pipeline reads. -/
structure ArtifactEntry where
  name : String
  git_tree_sha1 : Option String
  lazy : Bool
  downloads : List DownloadInfo
deriving DecidableEq

/-- State of one artifact cache directory: does the directory exist, does
the completion marker file `.fetch_artifacts_complete` exist inside it,
and what content does it hold. -/
structure DirState where
  present : Bool
  marker : Bool
  content : Option Content
deriving DecidableEq

/-- The state of a cache directory that does not exist. -/
def absentDir : DirState := ⟨false, false, none⟩

/-- Python `ArtifactManager._is_valid_artifact`: the directory exists and the
completion marker file exists inside it. -/
def is_valid_artifact (d : DirState) : Bool := d.present && d.marker

/-- What the network and the archive codec deliver for one source attempt:
the sha256 hexdigest of the downloaded temporary file, and the extraction
result (`none` models `_extract_archive` raising). -/
structure SourceOutcome where
  sha : String
  extracted : Option Content
deriving DecidableEq

/-- ASCII lowercasing of one code point, as Python str.lower acts on the
characters of a sha256 hex digest. -/
def lowerByte (n : Nat) : Nat := if 65 ≤ n ∧ n ≤ 90 then n + 32 else n

/-- The code point sequence of a lowercased string; two strings are equal
after lowercasing iff their `strLower` images are equal. -/
def strLower (s : String) : List Nat := s.data.map (fun c => lowerByte c.toNat)

/-- The checksum gate of `_download_and_extract`: verification is skipped
when `dl.sha256` is empty (falsy), otherwise `_verify_checksum` compares
lowercased hexdigests. -/
def checkOk (dl : DownloadInfo) (o : SourceOutcome) : Bool :=
  dl.sha256 == "" || strLower o.sha == strLower dl.sha256

/-- The per-source exceptions that `_ensure_artifact` catches and recovers
from, carrying the data their Python messages interpolate. -/
inductive SourceErr where
  | checksumMismatch (url : String)
  | extractionFailure (url : String)
deriving DecidableEq

/-- The message of the exception a failed source attempt raises
(RuntimeError for a checksum mismatch; for extraction the underlying
tarfile/zipfile error, modelled by a fixed rendering). -/
def renderErr : SourceErr → String
  | .checksumMismatch url => "Checksum verification failed for " ++ url
  | .extractionFailure url => "could not extract archive from " ++ url

/-- Primitive filesystem operations `_download_and_extract` performs on
the final cache directory, in source order: `shutil.rmtree(artifact_dir)`,
`shutil.copytree(src_dir, artifact_dir)`, `marker.touch()`. -/
inductive FsOp where
  | rmtree
  | copytree (c : Content)
  | touchMarker
deriving DecidableEq

/-- Effect of one primitive filesystem operation on the cache directory
state.  `copytree` creates the directory with the extracted content and no
marker (the marker file is never part of an archive). -/
def applyOp (d : DirState) : FsOp → DirState
  | .rmtree => absentDir
  | .copytree c => ⟨true, false, some c⟩
  | .touchMarker => ⟨d.present, true, d.content⟩

/-- The filesystem operations one run of `_download_and_extract` performs
on the final cache directory, in order.  A checksum mismatch raises before
the directory is touched; extraction happens after the stale-directory
clean (`if artifact_dir.exists(): shutil.rmtree(...)`), so an extraction
failure leaves only that removal behind; on success the content is copied
into place and the marker is touched last. -/
def attemptOps (dl : DownloadInfo) (o : SourceOutcome) (d : DirState) : List FsOp :=
  if checkOk dl o then
    match o.extracted with
    | none => if d.present then [.rmtree] else []
    | some c => (if d.present then [.rmtree] else []) ++ [.copytree c, .touchMarker]
  else []

/-- Whether (and how) one run of `_download_and_extract` raises; `none`
means the attempt succeeded and returned the artifact directory. -/
def attemptErr (dl : DownloadInfo) (o : SourceOutcome) : Option SourceErr :=
  if checkOk dl o then
    match o.extracted with
    | none => some (.extractionFailure dl.url)
    | some _ => none
  else some (.checksumMismatch dl.url)

/-- The cache directory state after one run of `_download_and_extract`. -/
def attemptState (dl : DownloadInfo) (o : SourceOutcome) (d : DirState) : DirState :=
  (attemptOps dl o d).foldl applyOp d

/-- The RuntimeError message `_ensure_artifact` raises when an entry has
no download sources. -/
def noSourcesMsg (name : String) : String :=
  "Artifact \x27" ++ name ++ "\x27 has no download sources defined"

/-- The RuntimeError message `_ensure_artifact` raises after every source
failed; it interpolates the entry name and the last caught exception. -/
def allFailedMsg (name : String) (last : Option SourceErr) : String :=
  "Failed to download artifact \x27" ++ name ++
    "\x27 from all sources. Last error: " ++
    (match last with
     | some e => renderErr e
     | none => "None")

deriving instance DecidableEq for Except

/-- Result of one run of the fetch loop: the final state of the cache
directory, the URLs fetched from the network in order, and success or the
raised fatal error message. -/
structure RunResult where
  dir : DirState
  fetched : List String
  result : Except String Unit
deriving DecidableEq

/-- The `for dl in entry.downloads` loop of `_ensure_artifact`: each
source is attempted once in order; the first success returns; a failure is
recorded as `last_error` and the loop advances; when the list is exhausted
the RuntimeError is raised. -/
def ensureLoop (name : String) :
    List (DownloadInfo × SourceOutcome) → DirState → Option SourceErr → RunResult
  | [], d, last => ⟨d, [], .error (allFailedMsg name last)⟩
  | (dl, o) :: rest, d, _ =>
    match attemptErr dl o with
    | none => ⟨attemptState dl o d, [dl.url], .ok ()⟩
    | some e =>
      let r := ensureLoop name rest (attemptState dl o d) (some e)
      ⟨r.dir, dl.url :: r.fetched, r.result⟩

/-- Python `ArtifactManager._ensure_artifact`: return at once if the cache is
valid, fail if there are no sources, else run the fetch loop.  `outs`
supplies what the network and codec deliver for each source in order. -/
def ensure_artifact (entry : ArtifactEntry) (outs : List SourceOutcome)
    (d : DirState) : RunResult :=
  if d.present && is_valid_artifact d then ⟨d, [], .ok ()⟩
  else if entry.downloads.isEmpty then ⟨d, [], .error (noSourcesMsg entry.name)⟩
  else ensureLoop entry.name (entry.downloads.zip outs) d none

/-- An `ArtifactManager`: its loaded entries (an association list keyed by
artifact name, as parsed from Artifacts.toml) and its configuration. -/
structure Manager where
  artifacts : List (String × ArtifactEntry)
  cache_dir : String
  toml_path : String
deriving DecidableEq

/-- Python `ArtifactManager._get_artifact_dir`: `cache_dir / git_tree_sha1` when
the hash is present, else `cache_dir / name`. -/
def artifact_dir (m : Manager) (entry : ArtifactEntry) : String :=
  m.cache_dir ++ "/" ++
    (match entry.git_tree_sha1 with
     | some h => h
     | none => entry.name)

/-- The exceptions `get_path` can raise: KeyError for an unknown name,
RuntimeError when not cached and download is disallowed, and the fetch
pipeline failures (no sources / all sources failed). -/
inductive GetPathError where
  | notFound (name : String)
  | notCached (name : String)
  | pipelineFailed (msg : String)
deriving DecidableEq

/-- Result of `get_path`: the whole cache filesystem afterwards (a map
from directory path to state), the URLs fetched, and the returned path or
the raised error. -/
structure GetPathResult where
  fs : String → DirState
  fetched : List String
  result : Except GetPathError String

/-- Python `ArtifactManager.get_path(name, download)`: KeyError if the name is
not in the manifest; the cache directory at once (no fetching) if valid;
RuntimeError if invalid and `download=False`; otherwise the fetch
pipeline. -/
def get_path (m : Manager) (fs : String → DirState) (name : String)
    (download : Bool) (outs : List SourceOutcome) : GetPathResult :=
  match List.lookup name m.artifacts with
  | none => ⟨fs, [], .error (.notFound name)⟩
  | some entry =>
    let dirPath := artifact_dir m entry
    let d := fs dirPath
    if d.present && is_valid_artifact d then ⟨fs, [], .ok dirPath⟩
    else if !download then ⟨fs, [], .error (.notCached name)⟩
    else
      let r := ensure_artifact entry outs d
      ⟨fun p => if p = dirPath then r.dir else fs p, r.fetched,
        match r.result with
        | .ok _ => .ok dirPath
        | .error msg => .error (.pipelineFailed msg)⟩

/-- Python `ArtifactManager.exists(name)`: `false` for an unknown name, else
cache validity; the second component is the list of network fetches it
performs, which is empty on every path. -/
def exists_artifact (m : Manager) (fs : String → DirState) (name : String) :
    Bool × List String :=
  match List.lookup name m.artifacts with
  | none => (false, [])
  | some entry => (is_valid_artifact (fs (artifact_dir m entry)), [])

/-- The process-wide manager memo of `load_artifacts` in artifacts.py
(the module global `_artifact_managers`), keyed by
`str(toml_path.resolve())`. -/
abbrev ManagerMemo := List (String × Manager)

/-- Python `load_artifacts(toml_path, cache_dir)`: look the resolved path up in
the memo; construct and insert a manager only on a miss.  `resolve`
abstracts `Path.resolve()`; `mk` abstracts the `ArtifactManager`
constructor reading the manifest from disk at call time (so a changed
on-disk manifest is a different `mk`).  The `cache_dir` argument is only
ever passed to `mk`. -/
def load_artifacts (resolve : String → String)
    (mk : String → Option String → Manager) (memo : ManagerMemo)
    (toml_path : String) (cache_dir : Option String) : ManagerMemo × Manager :=
  let key := resolve toml_path
  match List.lookup key memo with
  | some m => (memo, m)
  | none =>
    let m := mk toml_path cache_dir
    ((key, m) :: memo, m)

/-- A TOML value as tomlkit presents it to create.py: strings, booleans,
tables and arrays of tables are the shapes `bind_artifact` and
`ArtifactEntry.from_dict` handle. -/
inductive TomlItem where
  | str (s : String)
  | bool (b : Bool)
  | table (t : List (String × TomlItem))
  | aot (ts : List (List (String × TomlItem)))

/-- A TOML document or table: an ordered association of keys to values. -/
abbrev TomlDoc := List (String × TomlItem)

/-- Key lookup in a TOML table (`name in doc` / `doc[name]`). -/
def lookupKey : TomlDoc → String → Option TomlItem
  | [], _ => none
  | (k, v) :: rest, key => if k = key then some v else lookupKey rest key

/-- Membership `name in doc` for a tomlkit document. -/
def hasKey (doc : TomlDoc) (key : String) : Bool := (lookupKey doc key).isSome

/-- Assignment `doc[name] = value` for a tomlkit document: replace in place when the
key exists, append otherwise. -/
def setKey : TomlDoc → String → TomlItem → TomlDoc
  | [], key, v => [(key, v)]
  | (k, w) :: rest, key, v =>
    if k = key then (key, v) :: rest else (k, w) :: setKey rest key v

/-- One read or write of the manifest file performed by `bind_artifact`. -/
inductive FileOp where
  | read
  | write
deriving DecidableEq

/-- The ValueError message `bind_artifact` raises for a duplicate name
without `force`. -/
def alreadyExistsMsg (name toml_path : String) : String :=
  "Artifact \x27" ++ name ++ "\x27 already exists in " ++ toml_path ++
    ". Use force=True to overwrite."

/-- The artifact table `bind_artifact` builds: `git-tree-sha1` always,
`lazy = true` only when `lazy` is true (false is recorded by omitting the
key), then the one-element download array. -/
def artifactTable (gts : String) (lazy : Bool) (url sha : String) : TomlDoc :=
  [("git-tree-sha1", TomlItem.str gts)] ++
    (if lazy then [("lazy", TomlItem.bool true)] else []) ++
    [("download", TomlItem.aot [[("url", TomlItem.str url),
      ("sha256", TomlItem.str sha)]])]

/-- Result of a `bind_artifact` call: the manifest file content afterwards,
the file operations performed in order, and success or the raised error. -/
structure BindResult where
  file : Option TomlDoc
  ops : List FileOp
  result : Except String Unit

/-- Python `bind_artifact` from create.py: load the manifest (or start from an
empty document when the file does not exist), raise ValueError when the
name exists and `force` is false — before any write — else insert the new
artifact table and write the document back. -/
def bind_artifact (toml_path : String) (file : Option TomlDoc)
    (name gts url sha : String) (lazy force : Bool) : BindResult :=
  match file with
  | some doc =>
    if hasKey doc name && !force then
      ⟨some doc, [.read], .error (alreadyExistsMsg name toml_path)⟩
    else
      ⟨some (setKey doc name (.table (artifactTable gts lazy url sha))),
        [.read, .write], .ok ()⟩
  | none =>
    ⟨some (setKey [] name (.table (artifactTable gts lazy url sha))),
      [.write], .ok ()⟩

/-- One element of an entry's download array, as
`ArtifactEntry.from_dict` reads it: `dl["url"]` must be present (a missing
url key raises, modelled as `none`), `dl.get("sha256", "")` defaults to
the empty string. -/
def parseDownload (dl : TomlDoc) : Option DownloadInfo :=
  match lookupKey dl ("url") with
  | some (TomlItem.str u) =>
    some ⟨u, match lookupKey dl ("sha256") with
             | some (TomlItem.str s) => s
             | _ => ""⟩
  | _ => none

/-- The `for dl in data["download"]` loop of `from_dict`. -/
def parseDownloads : List TomlDoc → Option (List DownloadInfo)
  | [] => some []
  | dl :: rest =>
    match parseDownload dl, parseDownloads rest with
    | some d, some ds => some (d :: ds)
    | _, _ => none

/-- Python `ArtifactEntry.from_dict`: `git-tree-sha1` via `.get` (optional), the
`lazy` flag via `data.get("lazy", True)` — an absent key yields `True` —
and the download array when present. -/
def from_dict (name : String) (data : TomlDoc) : Option ArtifactEntry :=
  (match lookupKey data ("download") with
   | some (TomlItem.aot l) => parseDownloads l
   | _ => some []).map (fun dls =>
    ⟨name,
     (match lookupKey data ("git-tree-sha1") with
      | some (TomlItem.str s) => some s
      | _ => none),
     (match lookupKey data ("lazy") with
      | some (TomlItem.bool b) => b
      | _ => true),
     dls⟩)

/-- A byte sequence (file content, or the UTF-8 bytes of a relative
path). -/
abbrev Bytes := List Nat

/-- One regular file of a directory tree, as `_fallback_tree_hash` sees
it: its relative path's bytes and its content bytes.  The absolute
location of the directory is already factored out, and the input list
order models the filesystem traversal order. -/
abbrev FileEntry := Bytes × Bytes

/-- Byte-wise lexicographic order, the order `sorted()` induces on the
path strings of the files (a common absolute prefix does not change the
relative order). -/
def bytesLe : Bytes → Bytes → Bool
  | [], _ => true
  | _ :: _, [] => false
  | a :: as, b :: bs =>
    if a < b then true else if b < a then false else bytesLe as bs

/-- Comparison of two files by relative path, the sort key of
`_fallback_tree_hash`. -/
def entryLe (a b : FileEntry) : Bool := bytesLe a.1 b.1

/-- The sorted traversal `sorted(directory.rglob("*"))` restricted to
regular files. -/
def sortEntries (l : List FileEntry) : List FileEntry := l.mergeSort entryLe

/-- The exact byte stream `_fallback_tree_hash` feeds to its single sha256
instance: for each file in sorted order, the relative path bytes followed
immediately by the content bytes, with no separator or length framing. -/
def transcript (l : List FileEntry) : Bytes :=
  (sortEntries l).foldl (fun acc f => acc ++ f.1 ++ f.2) []

/-- Python `_fallback_tree_hash`: hash the transcript and truncate the hexdigest
to 40 characters.  `H` abstracts sha256's hexdigest (a fixed function of
the input bytes); every property proved for all `H` in particular holds
for sha256. -/
def fallback_tree_hash (H : Bytes → List Char) (l : List FileEntry) :
    List Char :=
  (H (transcript l)).take 40

/-- Python `url.split("?")[0]`: the characters before the first question mark. -/
def stripQuery (s : List Char) : List Char := s.takeWhile (fun c => c ≠ '?')

/-- Python `url_without_query.lower()`. -/
def urlLower (s : List Char) : List Char := s.map Char.toLower

/-- Python `str.endswith`. -/
def endsWithB (p s : List Char) : Bool := List.isSuffixOf p s

/-- Python `ArtifactManager._get_archive_suffix`: strip the query string, lower,
then the endswith chain with `.tar.gz` as default. -/
def get_archive_suffix (url : List Char) : List Char :=
  let t := urlLower (stripQuery url)
  if endsWithB ((".tar.xz").toList) t then (".tar.xz").toList
  else if endsWithB ((".tar.gz").toList) t || endsWithB ((".tgz").toList) t then
    (".tar.gz").toList
  else if endsWithB ((".tar.bz2").toList) t then (".tar.bz2").toList
  else if endsWithB ((".tar").toList) t then (".tar").toList
  else if endsWithB ((".zip").toList) t then (".zip").toList
  else (".tar.gz").toList

/-- Modelled from the spec: the recognized suffix patterns and the archive
kind each yields, listed in order of decreasing pattern length so that an
earlier match is never shorter than a later one. -/
def suffixPatterns : List (List Char × List Char) :=
  [((".tar.bz2").toList, (".tar.bz2").toList),
   ((".tar.xz").toList, (".tar.xz").toList),
   ((".tar.gz").toList, (".tar.gz").toList),
   ((".tgz").toList, (".tar.gz").toList),
   ((".tar").toList, (".tar").toList),
   ((".zip").toList, (".zip").toList)]

/-- Modelled from the spec: among a list of candidate patterns pick one of
maximal pattern length, preferring the earlier on ties. -/
def pickLongest : List (List Char × List Char) → Option (List Char × List Char)
  | [] => none
  | p :: rest =>
    match pickLongest rest with
    | none => some p
    | some q => if q.1.length > p.1.length then some q else some p

/-- Modelled from the spec: determine the archive kind from the URL suffix
after stripping the query string, choosing the longest match among the
recognized patterns, defaulting to `.tar.gz`. -/
def archive_kind_spec (url : List Char) : List Char :=
  let t := urlLower (stripQuery url)
  match pickLongest (suffixPatterns.filter (fun p => endsWithB p.1 t)) with
  | some p => p.2
  | none => (".tar.gz").toList

/-- Concrete manager for the C1 witness. -/
def mgrC1 : Manager :=
  ⟨[("Data", ⟨"Data", some ("h1"), true, []⟩)], "/cache", "/proj/Artifacts.toml"⟩

/-- Concrete cache filesystem for the C1 witness: the entry's directory is
present and marked. -/
def fsC1 : String → DirState :=
  fun p => if p = "/cache/h1" then ⟨true, true, some ("x")⟩ else absentDir

/-- A stale marker-less cache directory, for the C2 and C4 witnesses. -/
def staleC2 : DirState := ⟨true, false, some ("old")⟩

/-- The spec's three-source scenario for the C2 witness: checksum
mismatch, then corrupt archive, then success. -/
def psC2 : List (DownloadInfo × SourceOutcome) :=
  [(⟨"http://one", "aaa"⟩, ⟨"zzz", none⟩),
   (⟨"http://two", "bbb"⟩, ⟨"bbb", none⟩),
   (⟨"http://three", "ccc"⟩, ⟨"ccc", some ("t3")⟩)]

/-- A successful attempt requires a passed (or skipped) checksum gate and
a successful extraction. -/
theorem attemptErr_none (dl : DownloadInfo) (o : SourceOutcome)
    (h : attemptErr dl o = none) :
    checkOk dl o = true ∧ ∃ c, o.extracted = some c := by
  unfold attemptErr at h
  cases hck : checkOk dl o <;> rw [hck] at h
  · simp at h
  · cases he : o.extracted <;> rw [he] at h
    · simp at h
    · exact ⟨rfl, _, rfl⟩

/-- After a successful source attempt the cache directory holds the
extracted content and the completion marker. -/
theorem attempt_success_state (dl : DownloadInfo) (o : SourceOutcome)
    (d : DirState) (c : Content)
    (hck : checkOk dl o = true) (he : o.extracted = some c) :
    attemptState dl o d = ⟨true, true, some c⟩ := by
  unfold attemptState attemptOps
  rw [hck, he]
  cases hd : d.present <;> simp [applyOp]

/-- A failed source attempt either leaves the cache directory exactly as
it was (checksum mismatch, raised before the directory is touched) or
removes it entirely (extraction failure, raised after the stale-directory
clean); it never creates a directory. -/
theorem attempt_fail_state (dl : DownloadInfo) (o : SourceOutcome) (d : DirState)
    (h : attemptErr dl o ≠ none) :
    attemptState dl o d = d ∨ attemptState dl o d = absentDir := by
  unfold attemptErr at h
  unfold attemptState attemptOps
  cases hck : checkOk dl o <;> rw [hck] at h
  · exact Or.inl rfl
  · cases he : o.extracted <;> rw [he] at h
    · cases hd : d.present
      · exact Or.inl rfl
      · exact Or.inr rfl
    · simp at h

/-- Unfolding of the fetch loop on an empty source list. -/
theorem ensureLoop_nil (name : String) (d : DirState) (last : Option SourceErr) :
    ensureLoop name [] d last = ⟨d, [], .error (allFailedMsg name last)⟩ := rfl

/-- Unfolding of the fetch loop when the first source succeeds. -/
theorem ensureLoop_cons_ok (name : String) (dl : DownloadInfo) (o : SourceOutcome)
    (rest : List (DownloadInfo × SourceOutcome)) (d : DirState)
    (last : Option SourceErr) (herr : attemptErr dl o = none) :
    ensureLoop name ((dl, o) :: rest) d last =
      ⟨attemptState dl o d, [dl.url], .ok ()⟩ := by
  conv_lhs => rw [ensureLoop]
  rw [herr]

/-- Unfolding of the fetch loop when the first source fails: the attempt's
state change is kept, its URL is recorded, and the loop advances to the
remaining sources with the failure as the last error. -/
theorem ensureLoop_cons_fail (name : String) (dl : DownloadInfo)
    (o : SourceOutcome) (rest : List (DownloadInfo × SourceOutcome))
    (d : DirState) (last : Option SourceErr) (e : SourceErr)
    (herr : attemptErr dl o = some e) :
    ensureLoop name ((dl, o) :: rest) d last =
      ⟨(ensureLoop name rest (attemptState dl o d) (some e)).dir,
       dl.url :: (ensureLoop name rest (attemptState dl o d) (some e)).fetched,
       (ensureLoop name rest (attemptState dl o d) (some e)).result⟩ := by
  conv_lhs => rw [ensureLoop]
  rw [herr]

/-- The fetch loop never turns a cache directory that is not a marker-less
directory into one: if the marker invariant holds before the loop it holds
after it, whether the loop succeeds or fails. -/
theorem ensureLoop_inv (name : String) :
    ∀ (ps : List (DownloadInfo × SourceOutcome)) (d : DirState)
      (last : Option SourceErr),
      (d.present = true → d.marker = true) →
      ((ensureLoop name ps d last).dir.present = true →
        (ensureLoop name ps d last).dir.marker = true)
  | [], _, _, hd => hd
  | (dl, o) :: rest, d, last, hd => by
    cases herr : attemptErr dl o with
    | none =>
      rw [ensureLoop_cons_ok name dl o rest d last herr]
      obtain ⟨hck, c, he⟩ := attemptErr_none dl o herr
      rw [attempt_success_state dl o d c hck he]
      intro _
      rfl
    | some e =>
      rw [ensureLoop_cons_fail name dl o rest d last e herr]
      have hstep : (attemptState dl o d).present = true →
          (attemptState dl o d).marker = true := by
        rcases attempt_fail_state dl o d (by rw [herr]; simp) with hs | hs
        · rw [hs]; exact hd
        · rw [hs]; intro hp; simp [absentDir] at hp
      exact ensureLoop_inv name rest (attemptState dl o d) (some e) hstep

/-- When every source fails, the loop fetches each source URL once in
order and ends with the all-sources-failed error built from the error of
the last attempt. -/
theorem ensureLoop_all_fail (name : String) :
    ∀ (ps : List (DownloadInfo × SourceOutcome)) (d : DirState)
      (last : Option SourceErr) (hne : ps ≠ [])
      (_ : ∀ p ∈ ps, attemptErr p.1 p.2 ≠ none),
      (ensureLoop name ps d last).fetched = ps.map (fun p => p.1.url) ∧
      (ensureLoop name ps d last).result =
        .error (allFailedMsg name (attemptErr (ps.getLast hne).1 (ps.getLast hne).2))
  | [], _, _, hne, _ => absurd rfl hne
  | (dl, o) :: rest, d, last, hne, hfail => by
    have hhd : attemptErr dl o ≠ none := hfail (dl, o) (List.mem_cons_self _ _)
    obtain ⟨e, herr⟩ := Option.ne_none_iff_exists.mp hhd
    rw [ensureLoop_cons_fail name dl o rest d last e herr.symm]
    cases rest with
    | nil =>
      rw [ensureLoop_nil]
      constructor
      · rfl
      · show _ = Except.error (allFailedMsg name (attemptErr dl o))
        rw [← herr]
    | cons r rs =>
      have hne2 : r :: rs ≠ [] := List.cons_ne_nil r rs
      have hfail2 : ∀ p ∈ r :: rs, attemptErr p.1 p.2 ≠ none := by
        intro p hp
        exact hfail p (List.mem_cons_of_mem _ hp)
      have ih := ensureLoop_all_fail name (r :: rs) (attemptState dl o d)
        (some e) hne2 hfail2
      constructor
      · show dl.url :: (ensureLoop name (r :: rs) (attemptState dl o d)
            (some e)).fetched = List.map (fun p => p.1.url) ((dl, o) :: r :: rs)
        rw [List.map_cons, ih.1]
      · show (ensureLoop name (r :: rs) (attemptState dl o d) (some e)).result = _
        have hlast : ((dl, o) :: r :: rs).getLast hne = (r :: rs).getLast hne2 :=
          List.getLast_cons hne2
        rw [hlast]
        exact ih.2

/-- Claim C1: for every manifest entry, `get_path` returns the entry's
cache directory with no network fetch and no filesystem change whenever
the directory is valid (exists and holds the completion marker), for any
`download` flag; if the directory is invalid and `download=False`, it
raises the not-cached RuntimeError instead of returning a path. -/
theorem c1_resolve_cached (m : Manager) (fs : String → DirState) (name : String)
    (entry : ArtifactEntry) (outs : List SourceOutcome)
    (hlook : List.lookup name m.artifacts = some entry) :
    (is_valid_artifact (fs (artifact_dir m entry)) = true →
      ∀ download, get_path m fs name download outs =
        ⟨fs, [], .ok (artifact_dir m entry)⟩) ∧
    (is_valid_artifact (fs (artifact_dir m entry)) = false →
      get_path m fs name false outs = ⟨fs, [], .error (.notCached name)⟩) := by
  constructor
  · intro hv download
    have hp : (fs (artifact_dir m entry)).present = true := by
      unfold is_valid_artifact at hv
      revert hv
      cases (fs (artifact_dir m entry)).present <;> simp
    simp only [get_path, hlook]
    simp [hp, hv]
  · intro hv
    simp only [get_path, hlook]
    simp [hv]

/-- Witness for C1 at a concrete manager: a valid cached directory is
returned as is, with no fetches. -/
theorem c1_resolve_cached_witness :
    get_path mgrC1 fsC1 ("Data") true [] =
      ⟨fsC1, [], .ok (artifact_dir mgrC1 ⟨"Data", some ("h1"), true, []⟩)⟩ :=
  (c1_resolve_cached mgrC1 fsC1 ("Data") ⟨"Data", some ("h1"), true, []⟩ []
    (by decide)).1 (by decide) true

/-- Claim C2: the completion marker is written only after the artifact
content is fully in its final cache location — in a successful source
attempt the marker touch is the single last filesystem operation, and
the state just before it already holds the extracted content unmarked; a
failed source attempt leaves the cache directory unchanged or removed,
never a fresh marker-less directory; hence a whole fetch run starting
from a state with no marker-less directory never ends in one. -/
theorem c2_marker_commit (dl : DownloadInfo) (o : SourceOutcome) (d : DirState)
    (name : String) (ps : List (DownloadInfo × SourceOutcome)) :
    (∀ c, checkOk dl o = true → o.extracted = some c →
      attemptOps dl o d =
        ((if d.present then [FsOp.rmtree] else []) ++ [FsOp.copytree c]) ++
          [FsOp.touchMarker] ∧
      ((if d.present then [FsOp.rmtree] else []) ++ [FsOp.copytree c]).foldl
          applyOp d = ⟨true, false, some c⟩ ∧
      attemptState dl o d = ⟨true, true, some c⟩) ∧
    (attemptErr dl o ≠ none →
      attemptState dl o d = d ∨ attemptState dl o d = absentDir) ∧
    ((d.present = true → d.marker = true) →
      (ensureLoop name ps d none).dir.present = true →
      (ensureLoop name ps d none).dir.marker = true) := by
  refine ⟨?_, attempt_fail_state dl o d, ensureLoop_inv name ps d none⟩
  intro c hck he
  refine ⟨?_, ?_, attempt_success_state dl o d c hck he⟩
  · unfold attemptOps
    rw [hck, he]
    simp
  · cases hd : d.present <;> simp [applyOp]

/-- Witness for C2: the spec scenario — source one fails its checksum,
source two is a corrupt archive, source three succeeds — applied to the
theorem at concrete inputs. -/
theorem c2_marker_commit_witness :
    (attemptOps ⟨"http://three", "ccc"⟩ ⟨"ccc", some ("t3")⟩ absentDir =
      ((if absentDir.present then [FsOp.rmtree] else []) ++
        [FsOp.copytree ("t3")]) ++ [FsOp.touchMarker] ∧
     ((if absentDir.present then [FsOp.rmtree] else []) ++
        [FsOp.copytree ("t3")]).foldl applyOp absentDir =
       ⟨true, false, some ("t3")⟩ ∧
     attemptState ⟨"http://three", "ccc"⟩ ⟨"ccc", some ("t3")⟩ absentDir =
       ⟨true, true, some ("t3")⟩) ∧
    (attemptState ⟨"http://one", "aaa"⟩ ⟨"zzz", none⟩ staleC2 = staleC2 ∨
     attemptState ⟨"http://one", "aaa"⟩ ⟨"zzz", none⟩ staleC2 = absentDir) ∧
    ((ensureLoop ("Data") psC2 absentDir none).dir.present = true →
      (ensureLoop ("Data") psC2 absentDir none).dir.marker = true) :=
  ⟨(c2_marker_commit ⟨"http://three", "ccc"⟩ ⟨"ccc", some ("t3")⟩ absentDir
      ("Data") psC2).1 ("t3") (by decide) (by decide),
   (c2_marker_commit ⟨"http://one", "aaa"⟩ ⟨"zzz", none⟩ staleC2
      ("Data") psC2).2.1 (by decide),
   (c2_marker_commit ⟨"http://three", "ccc"⟩ ⟨"ccc", some ("t3")⟩ absentDir
      ("Data") psC2).2.2 (by decide)⟩

/-- Counterexample for C3: the all-sources-failed error does not carry the
count of sources tried.  Two runs over the same entry name — one with a
single source, one with two sources — all failing with the same last
cause, raise byte-identical errors while having tried different numbers of
sources, so no attempt count can be recovered from the error. -/
theorem c3_counterexample :
    (ensureLoop ("A") [(⟨"u", "aa"⟩, ⟨"bb", none⟩)] absentDir none).result =
      (ensureLoop ("A") [(⟨"v", "aa"⟩, ⟨"bb", none⟩), (⟨"u", "aa"⟩, ⟨"bb", none⟩)]
        absentDir none).result ∧
    (ensureLoop ("A") [(⟨"u", "aa"⟩, ⟨"bb", none⟩)] absentDir none).fetched.length
      = 1 ∧
    (ensureLoop ("A") [(⟨"v", "aa"⟩, ⟨"bb", none⟩), (⟨"u", "aa"⟩, ⟨"bb", none⟩)]
        absentDir none).fetched.length = 2 :=
  ⟨rfl, rfl, rfl⟩

/-- Claim C3 as amended: for every entry whose sources all fail, the fetch
loop fetches each source once, in manifest order, never retrying one, and
raises the all-sources-failed RuntimeError carrying the last underlying
cause — but not the count of sources tried. -/
theorem c3_all_sources_failed (name : String)
    (ps : List (DownloadInfo × SourceOutcome)) (d : DirState) (hne : ps ≠ [])
    (hfail : ∀ p ∈ ps, attemptErr p.1 p.2 ≠ none) :
    (ensureLoop name ps d none).fetched = ps.map (fun p => p.1.url) ∧
    (ensureLoop name ps d none).result =
      .error (allFailedMsg name (attemptErr (ps.getLast hne).1 (ps.getLast hne).2)) :=
  ensureLoop_all_fail name ps d none hne hfail

/-- Witness for C3: a concrete two-source run where both sources fail. -/
theorem c3_all_sources_failed_witness :
    (ensureLoop ("A") [(⟨"v", "aa"⟩, ⟨"bb", none⟩), (⟨"u", "cc"⟩, ⟨"dd", none⟩)]
        absentDir none).fetched =
      ([(⟨"v", "aa"⟩, ⟨"bb", none⟩), (⟨"u", "cc"⟩, ⟨"dd", none⟩)] :
        List (DownloadInfo × SourceOutcome)).map (fun p => p.1.url) ∧
    (ensureLoop ("A") [(⟨"v", "aa"⟩, ⟨"bb", none⟩), (⟨"u", "cc"⟩, ⟨"dd", none⟩)]
        absentDir none).result =
      .error (allFailedMsg ("A")
        (attemptErr
          (([(⟨"v", "aa"⟩, ⟨"bb", none⟩), (⟨"u", "cc"⟩, ⟨"dd", none⟩)] :
            List (DownloadInfo × SourceOutcome)).getLast (by decide)).1
          (([(⟨"v", "aa"⟩, ⟨"bb", none⟩), (⟨"u", "cc"⟩, ⟨"dd", none⟩)] :
            List (DownloadInfo × SourceOutcome)).getLast (by decide)).2)) :=
  c3_all_sources_failed ("A")
    [(⟨"v", "aa"⟩, ⟨"bb", none⟩), (⟨"u", "cc"⟩, ⟨"dd", none⟩)] absentDir
    (by decide) (by decide)

/-- Claim C4: a non-empty expected digest is compared case-insensitively
against the downloaded file's sha256 — a mismatch raises the checksum
error with the cache directory untouched and the loop advances to the next
source; matching digests, or an empty expected digest (no verification at
all), let the attempt proceed to extraction, whose outcome then decides
the attempt. -/
theorem c4_checksum_gate (dl : DownloadInfo) (o : SourceOutcome) (d : DirState)
    (name : String) (rest : List (DownloadInfo × SourceOutcome)) :
    (dl.sha256 ≠ "" → strLower o.sha ≠ strLower dl.sha256 →
      attemptErr dl o = some (.checksumMismatch dl.url) ∧
      attemptState dl o d = d ∧
      ensureLoop name ((dl, o) :: rest) d none =
        ⟨(ensureLoop name rest d (some (.checksumMismatch dl.url))).dir,
         dl.url :: (ensureLoop name rest d (some (.checksumMismatch dl.url))).fetched,
         (ensureLoop name rest d (some (.checksumMismatch dl.url))).result⟩) ∧
    (dl.sha256 ≠ "" → strLower o.sha = strLower dl.sha256 →
      checkOk dl o = true ∧
      attemptErr dl o = (match o.extracted with
        | none => some (.extractionFailure dl.url)
        | some _ => none)) ∧
    (dl.sha256 = "" →
      checkOk dl o = true ∧
      attemptErr dl o = (match o.extracted with
        | none => some (.extractionFailure dl.url)
        | some _ => none)) := by
  refine ⟨?_, ?_, ?_⟩
  · intro hne hmis
    have hck : checkOk dl o = false := by
      unfold checkOk
      simp [hne, hmis]
    have herr : attemptErr dl o = some (.checksumMismatch dl.url) := by
      unfold attemptErr
      rw [hck]
      rfl
    have hst : attemptState dl o d = d := by
      unfold attemptState attemptOps
      rw [hck]
      rfl
    refine ⟨herr, hst, ?_⟩
    rw [ensureLoop_cons_fail name dl o rest d none (.checksumMismatch dl.url) herr,
      hst]
  · intro hne heq
    have hck : checkOk dl o = true := by
      unfold checkOk
      simp [heq]
    refine ⟨hck, ?_⟩
    unfold attemptErr
    rw [hck]
    rfl
  · intro hemp
    have hck : checkOk dl o = true := by
      unfold checkOk
      simp [hemp]
    refine ⟨hck, ?_⟩
    unfold attemptErr
    rw [hck]
    rfl

/-- Witness for C4: a concrete mismatching source (upper- vs lower-case
digests that differ), a concrete case-insensitive match, and a concrete
empty-digest source that skips verification. -/
theorem c4_checksum_gate_witness :
    (attemptErr ⟨"u1", "AAAA"⟩ ⟨"bbbb", some ("t")⟩ =
      some (.checksumMismatch ("u1")) ∧
     attemptState ⟨"u1", "AAAA"⟩ ⟨"bbbb", some ("t")⟩ staleC2 = staleC2 ∧
     ensureLoop ("E") [(⟨"u1", "AAAA"⟩, ⟨"bbbb", some ("t")⟩)] staleC2 none =
       ⟨(ensureLoop ("E") [] staleC2 (some (.checksumMismatch ("u1")))).dir,
        "u1" :: (ensureLoop ("E") [] staleC2
          (some (.checksumMismatch ("u1")))).fetched,
        (ensureLoop ("E") [] staleC2
          (some (.checksumMismatch ("u1")))).result⟩) ∧
    (checkOk ⟨"u2", "AbCd"⟩ ⟨"aBcD", some ("t")⟩ = true ∧
     attemptErr ⟨"u2", "AbCd"⟩ ⟨"aBcD", some ("t")⟩ =
      (match (⟨"aBcD", some ("t")⟩ : SourceOutcome).extracted with
        | none => some (.extractionFailure ("u2"))
        | some _ => none)) ∧
    (checkOk ⟨"u3", ""⟩ ⟨"anything", none⟩ = true ∧
     attemptErr ⟨"u3", ""⟩ ⟨"anything", none⟩ =
      (match (⟨"anything", none⟩ : SourceOutcome).extracted with
        | none => some (.extractionFailure ("u3"))
        | some _ => none)) :=
  ⟨(c4_checksum_gate ⟨"u1", "AAAA"⟩ ⟨"bbbb", some ("t")⟩ staleC2 ("E") []).1
      (by decide) (by decide),
   (c4_checksum_gate ⟨"u2", "AbCd"⟩ ⟨"aBcD", some ("t")⟩ staleC2 ("E") []).2.1
      (by decide) (by decide),
   (c4_checksum_gate ⟨"u3", ""⟩ ⟨"anything", none⟩ staleC2 ("E") []).2.2
      (by decide)⟩

/-- Claim C10: for a name the manifest does not define, `exists` returns
`false` with no network fetch and no error, while `get_path` raises the
unknown-name KeyError. -/
theorem c10_unknown_name (m : Manager) (fs : String → DirState) (name : String)
    (download : Bool) (outs : List SourceOutcome)
    (h : List.lookup name m.artifacts = none) :
    exists_artifact m fs name = (false, []) ∧
    get_path m fs name download outs = ⟨fs, [], .error (.notFound name)⟩ := by
  constructor
  · simp [exists_artifact, h]
  · simp [get_path, h]

/-- Witness for C10 with a concrete manager that defines no entries. -/
theorem c10_unknown_name_witness :
    exists_artifact ⟨[], "/cache", "/proj/Artifacts.toml"⟩ fsC1 ("Nope") =
      (false, []) ∧
    get_path ⟨[], "/cache", "/proj/Artifacts.toml"⟩ fsC1 ("Nope") true [] =
      ⟨fsC1, [], .error (.notFound ("Nope"))⟩ :=
  c10_unknown_name ⟨[], "/cache", "/proj/Artifacts.toml"⟩ fsC1 ("Nope") true []
    (by decide)

/-- Case split for byte-wise lexicographic comparison of nonempty
sequences. -/
theorem bytesLe_cons_iff (a b : Nat) (as bs : Bytes) :
    bytesLe (a :: as) (b :: bs) = true ↔ a < b ∨ (a = b ∧ bytesLe as bs = true) := by
  have hunf : bytesLe (a :: as) (b :: bs) =
      if a < b then true else if b < a then false else bytesLe as bs := rfl
  rw [hunf]
  rcases Nat.lt_trichotomy a b with h | rfl | h
  · simp [h]
  · simp [Nat.lt_irrefl]
  · have h1 : ¬a < b := by omega
    have h2 : a ≠ b := by omega
    simp [h1, h, h2]

/-- Byte-wise order is total. -/
theorem bytesLe_total : ∀ a b : Bytes, (bytesLe a b || bytesLe b a) = true
  | [], _ => rfl
  | _ :: _, [] => rfl
  | a :: as, b :: bs => by
    rw [Bool.or_eq_true_iff]
    rcases Nat.lt_trichotomy a b with h | rfl | h
    · exact Or.inl ((bytesLe_cons_iff a b as bs).mpr (Or.inl h))
    · rcases Bool.or_eq_true_iff.mp (bytesLe_total as bs) with hr | hr
      · exact Or.inl ((bytesLe_cons_iff a a as bs).mpr (Or.inr ⟨rfl, hr⟩))
      · exact Or.inr ((bytesLe_cons_iff a a bs as).mpr (Or.inr ⟨rfl, hr⟩))
    · exact Or.inr ((bytesLe_cons_iff b a bs as).mpr (Or.inl h))

/-- Byte-wise order is transitive. -/
theorem bytesLe_trans : ∀ a b c : Bytes,
    bytesLe a b = true → bytesLe b c = true → bytesLe a c = true
  | [], _, _, _, _ => rfl
  | _ :: _, [], _, hab, _ => by simp [bytesLe] at hab
  | _ :: _, _ :: _, [], _, hbc => by simp [bytesLe] at hbc
  | a :: as, b :: bs, c :: cs, hab, hbc => by
    rw [bytesLe_cons_iff] at hab hbc ⊢
    rcases hab with h | ⟨rfl, hab⟩
    · rcases hbc with h2 | ⟨rfl, _⟩
      · exact Or.inl (Nat.lt_trans h h2)
      · exact Or.inl h
    · rcases hbc with h2 | ⟨rfl, hbc⟩
      · exact Or.inl h2
      · exact Or.inr ⟨rfl, bytesLe_trans as bs cs hab hbc⟩

/-- Byte-wise order is antisymmetric. -/
theorem bytesLe_antisymm : ∀ a b : Bytes,
    bytesLe a b = true → bytesLe b a = true → a = b
  | [], [], _, _ => rfl
  | [], _ :: _, _, hba => by simp [bytesLe] at hba
  | _ :: _, [], hab, _ => by simp [bytesLe] at hab
  | a :: as, b :: bs, hab, hba => by
    rw [bytesLe_cons_iff] at hab hba
    rcases hab with h | ⟨rfl, hab⟩
    · rcases hba with h2 | ⟨heq, _⟩
      · exact absurd (Nat.lt_trans h h2) (Nat.lt_irrefl a)
      · exact absurd h (heq ▸ Nat.lt_irrefl b)
    · rcases hba with h2 | ⟨_, hba⟩
      · exact absurd h2 (Nat.lt_irrefl a)
      · rw [bytesLe_antisymm as bs hab hba]

/-- Two lists of files with pairwise distinct relative paths that are
permutations of each other sort identically: the sorted file order of
`_fallback_tree_hash` does not depend on the traversal order. -/
theorem sortEntries_eq_of_perm (l1 l2 : List FileEntry)
    (hnd : (l1.map Prod.fst).Nodup) (hp : l1.Perm l2) :
    sortEntries l1 = sortEntries l2 := by
  have htrans : ∀ a b c : FileEntry, entryLe a b → entryLe b c → entryLe a c :=
    fun a b c hab hbc => bytesLe_trans a.1 b.1 c.1 hab hbc
  have htotal : ∀ a b : FileEntry, entryLe a b || entryLe b a :=
    fun a b => bytesLe_total a.1 b.1
  have hs1 := List.sorted_mergeSort htrans htotal l1
  have hs2 := List.sorted_mergeSort htrans htotal l2
  have hperm : (sortEntries l1).Perm (sortEntries l2) :=
    (List.mergeSort_perm l1 entryLe).trans
      (hp.trans (List.mergeSort_perm l2 entryLe).symm)
  have hnd1 : ((sortEntries l1).map Prod.fst).Nodup :=
    (((List.mergeSort_perm l1 entryLe).map Prod.fst).nodup_iff).mpr hnd
  have hnd2 : ((sortEntries l2).map Prod.fst).Nodup :=
    ((hperm.map Prod.fst).nodup_iff).mp hnd1
  have hne1 : (sortEntries l1).Pairwise (fun a b => a.1 ≠ b.1) := by
    unfold List.Nodup at hnd1
    exact List.pairwise_map.mp hnd1
  have hne2 : (sortEntries l2).Pairwise (fun a b => a.1 ≠ b.1) := by
    unfold List.Nodup at hnd2
    exact List.pairwise_map.mp hnd2
  have hr1 : List.Sorted
      (fun a b : FileEntry => bytesLe a.1 b.1 = true ∧ a.1 ≠ b.1)
      (sortEntries l1) := by
    exact (List.pairwise_and_iff).mpr ⟨hs1, hne1⟩
  have hr2 : List.Sorted
      (fun a b : FileEntry => bytesLe a.1 b.1 = true ∧ a.1 ≠ b.1)
      (sortEntries l2) := by
    exact (List.pairwise_and_iff).mpr ⟨hs2, hne2⟩
  haveI : IsAntisymm FileEntry
      (fun a b : FileEntry => bytesLe a.1 b.1 = true ∧ a.1 ≠ b.1) :=
    ⟨fun a b hab hba => absurd (bytesLe_antisymm a.1 b.1 hab.1 hba.1) hab.2⟩
  exact List.eq_of_perm_of_sorted hperm hr1 hr2

/-- Counterexample for C6: the fallback tree hash concatenates path bytes
and content bytes with no separator, so the directory holding one file
with path bytes 97 98 and content byte 99 and the directory holding one
file with path byte 97 and content bytes 98 99 feed the identical byte
stream to the hash.  Since the digest is by definition
`(H (transcript l)).take 40` for the (fixed) hash function, these two
distinct directories receive the same digest — for sha256 as for any
hash — refuting that the digest differs whenever a relative path or a
content byte differs. -/
theorem c6_counterexample :
    transcript [([97, 98], [99])] = transcript [([97], [98, 99])] ∧
    ([([97, 98], [99])] : List FileEntry) ≠ [([97], [98, 99])] := by
  constructor
  · simp [transcript, sortEntries]
  · decide

/-- Claim C6 as amended: for any hash function, directories with identical
sets of (relative path, content) pairs and pairwise distinct paths get the
identical fallback tree digest regardless of traversal order (absolute
location never enters), the digest being the hash of the sorted
(pathBytes ++ contentBytes) stream truncated to at most 40 characters; but
two distinct directories collide whenever their unseparated streams
coincide, so the digest is only guaranteed to differ when the transcripts
differ. -/
theorem c6_tree_hash_deterministic (H : Bytes → List Char)
    (l1 l2 : List FileEntry) (hnd : (l1.map Prod.fst).Nodup)
    (hp : l1.Perm l2) :
    fallback_tree_hash H l1 = fallback_tree_hash H l2 ∧
    (fallback_tree_hash H l1).length ≤ 40 := by
  constructor
  · unfold fallback_tree_hash transcript
    rw [sortEntries_eq_of_perm l1 l2 hnd hp]
  · exact List.length_take_le 40 _

/-- Witness for C6: two concrete two-file directories that are
permutations of each other, hashed with a concrete hash function. -/
theorem c6_tree_hash_deterministic_witness :
    fallback_tree_hash (fun b => b.map Char.ofNat)
        [([98], [1]), ([97], [2])] =
      fallback_tree_hash (fun b => b.map Char.ofNat)
        [([97], [2]), ([98], [1])] ∧
    (fallback_tree_hash (fun b => b.map Char.ofNat)
        [([98], [1]), ([97], [2])]).length ≤ 40 :=
  c6_tree_hash_deterministic (fun b => b.map Char.ofNat)
    [([98], [1]), ([97], [2])] [([97], [2]), ([98], [1])]
    (by decide) (by decide)

/-- Two suffix patterns of which neither is a suffix of the other can
never both match one string. -/
theorem endsWith_excl {t p q : List Char} (hp : endsWithB p t = true)
    (h1 : p.length ≤ q.length → ¬ p <:+ q)
    (h2 : q.length ≤ p.length → ¬ q <:+ p) :
    endsWithB q t = false := by
  by_contra hq
  rw [Bool.not_eq_false] at hq
  unfold endsWithB at hp hq
  rw [List.isSuffixOf_iff_suffix] at hp hq
  rcases Nat.le_total p.length q.length with hle | hle
  · exact h1 hle (List.suffix_of_suffix_length_le hp hq hle)
  · exact h2 hle (List.suffix_of_suffix_length_le hq hp hle)

/-- Claim C5: for every URL, the suffix chain of
`_get_archive_suffix` computes exactly the longest match among the
recognized patterns on the query-stripped, lowercased URL, with `.tar.gz`
as the default for an unrecognized suffix. -/
theorem c5_archive_kind (url : List Char) :
    get_archive_suffix url = archive_kind_spec url := by
  simp only [get_archive_suffix, archive_kind_spec]
  set t := urlLower (stripQuery url) with ht
  by_cases h1 : endsWithB ((".tar.xz").toList) t = true
  · have e1 : endsWithB ((".tar.bz2").toList) t = false :=
      endsWith_excl h1 (fun _ => by decide) (fun _ => by decide)
    have e2 : endsWithB ((".tar.gz").toList) t = false :=
      endsWith_excl h1 (fun _ => by decide) (fun _ => by decide)
    have e3 : endsWithB ((".tgz").toList) t = false :=
      endsWith_excl h1 (fun _ => by decide) (fun _ => by decide)
    have e4 : endsWithB ((".tar").toList) t = false :=
      endsWith_excl h1 (fun _ => by decide) (fun _ => by decide)
    have e5 : endsWithB ((".zip").toList) t = false :=
      endsWith_excl h1 (fun _ => by decide) (fun _ => by decide)
    simp at h1 e1 e2 e3 e4 e5
    simp [h1, e1, e2, e3, e4, e5, suffixPatterns, pickLongest]
  · simp only [Bool.not_eq_true] at h1
    by_cases h2 : endsWithB ((".tar.gz").toList) t = true
    · have e1 : endsWithB ((".tar.bz2").toList) t = false :=
        endsWith_excl h2 (fun _ => by decide) (fun _ => by decide)
      have e3 : endsWithB ((".tgz").toList) t = false :=
        endsWith_excl h2 (fun _ => by decide) (fun _ => by decide)
      have e4 : endsWithB ((".tar").toList) t = false :=
        endsWith_excl h2 (fun _ => by decide) (fun _ => by decide)
      have e5 : endsWithB ((".zip").toList) t = false :=
        endsWith_excl h2 (fun _ => by decide) (fun _ => by decide)
      simp at h1 h2 e1 e3 e4 e5
      simp [h1, h2, e1, e3, e4, e5, suffixPatterns, pickLongest]
    · simp only [Bool.not_eq_true] at h2
      by_cases h3 : endsWithB ((".tgz").toList) t = true
      · have e1 : endsWithB ((".tar.bz2").toList) t = false :=
          endsWith_excl h3 (fun _ => by decide) (fun _ => by decide)
        have e4 : endsWithB ((".tar").toList) t = false :=
          endsWith_excl h3 (fun _ => by decide) (fun _ => by decide)
        have e5 : endsWithB ((".zip").toList) t = false :=
          endsWith_excl h3 (fun _ => by decide) (fun _ => by decide)
        simp at h1 h2 h3 e1 e4 e5
        simp [h1, h2, h3, e1, e4, e5, suffixPatterns, pickLongest]
      · simp only [Bool.not_eq_true] at h3
        by_cases h4 : endsWithB ((".tar.bz2").toList) t = true
        · have e4 : endsWithB ((".tar").toList) t = false :=
            endsWith_excl h4 (fun _ => by decide) (fun _ => by decide)
          have e5 : endsWithB ((".zip").toList) t = false :=
            endsWith_excl h4 (fun _ => by decide) (fun _ => by decide)
          simp at h1 h2 h3 h4 e4 e5
          simp [h1, h2, h3, h4, e4, e5, suffixPatterns, pickLongest]
        · simp only [Bool.not_eq_true] at h4
          by_cases h5 : endsWithB ((".tar").toList) t = true
          · have e5 : endsWithB ((".zip").toList) t = false :=
              endsWith_excl h5 (fun _ => by decide) (fun _ => by decide)
            simp at h1 h2 h3 h4 h5 e5
            simp [h1, h2, h3, h4, h5, e5, suffixPatterns, pickLongest]
          · simp only [Bool.not_eq_true] at h5
            by_cases h6 : endsWithB ((".zip").toList) t = true
            · simp at h1 h2 h3 h4 h5 h6
              simp [h1, h2, h3, h4, h5, h6, suffixPatterns, pickLongest]
            · simp only [Bool.not_eq_true] at h6
              simp at h1 h2 h3 h4 h5 h6
              simp [h1, h2, h3, h4, h5, h6, suffixPatterns, pickLongest]

/-- Claim C7: binding a name that already exists in the manifest without
`force` raises the already-exists ValueError, performs only the read (no
write), and leaves the manifest file content identical. -/
theorem c7_bind_existing_no_force (toml_path : String) (doc : TomlDoc)
    (name gts url sha : String) (lazy : Bool) (hk : hasKey doc name = true) :
    bind_artifact toml_path (some doc) name gts url sha lazy false =
      ⟨some doc, [FileOp.read], .error (alreadyExistsMsg name toml_path)⟩ := by
  simp [bind_artifact, hk]

/-- Witness for C7 at a concrete manifest containing the name. -/
theorem c7_bind_existing_no_force_witness :
    bind_artifact ("/proj/Artifacts.toml") (some [(("Data"), TomlItem.table [])])
        ("Data") ("h2") ("u2") ("s2") true false =
      ⟨some [(("Data"), TomlItem.table [])], [FileOp.read],
        .error (alreadyExistsMsg ("Data") ("/proj/Artifacts.toml"))⟩ :=
  c7_bind_existing_no_force ("/proj/Artifacts.toml")
    [(("Data"), TomlItem.table [])] ("Data") ("h2") ("u2") ("s2") true
    (by decide)

/-- Counterexample for C8: binding with `lazy=false` omits the `lazy` key,
but `from_dict` defaults an absent `lazy` key to `True` (and the
repository's tests assert that default), so loading the bound entry yields
`lazy = true`, not `false`: the omission encoding does not round-trip. -/
theorem c8_counterexample :
    lookupKey (artifactTable ("h1") false ("http://u") ("s1")) ("lazy") = none ∧
    (from_dict ("Art") (artifactTable ("h1") false ("http://u") ("s1"))).map
      ArtifactEntry.lazy = some true := by
  constructor
  · rfl
  · rfl

/-- Claim C8 as amended: `bind_artifact` writes `lazy = true` explicitly
and records `lazy=false` by omitting the key, but the encoding does not
round-trip: `from_dict` defaults the absent key to true, so an entry bound
with either flag loads with `lazy = true`. -/
theorem c8_lazy_encoding (name gts url sha : String) :
    lookupKey (artifactTable gts true url sha) ("lazy") =
      some (TomlItem.bool true) ∧
    lookupKey (artifactTable gts false url sha) ("lazy") = none ∧
    (from_dict name (artifactTable gts true url sha)).map
      ArtifactEntry.lazy = some true ∧
    (from_dict name (artifactTable gts false url sha)).map
      ArtifactEntry.lazy = some true := by
  refine ⟨?_, ?_, ?_, ?_⟩ <;>
    simp [artifactTable, lookupKey, from_dict, parseDownloads, parseDownload]

/-- The manager `load_artifacts` returns is afterwards in the memo under
its resolved path. -/
theorem load_artifacts_lookup (resolve : String → String)
    (mk : String → Option String → Manager) (memo : ManagerMemo)
    (toml_path : String) (cd : Option String) :
    List.lookup (resolve toml_path)
        (load_artifacts resolve mk memo toml_path cd).1 =
      some (load_artifacts resolve mk memo toml_path cd).2 := by
  unfold load_artifacts
  cases h : List.lookup (resolve toml_path) memo with
  | some m => simp [h]
  | none => simp [h, List.lookup]

/-- Claim C9: two `load_artifacts` calls whose manifest paths resolve to
the same absolute path return the same manager instance — the second call
leaves the memo untouched and returns the first call's manager, whatever
manifest the disk would now yield (`mk2`) and whatever `cache_dir` it
passes. -/
theorem c9_memoized (resolve : String → String)
    (mk1 mk2 : String → Option String → Manager) (memo : ManagerMemo)
    (p1 p2 : String) (cd1 cd2 : Option String)
    (hres : resolve p2 = resolve p1) :
    load_artifacts resolve mk2 (load_artifacts resolve mk1 memo p1 cd1).1
        p2 cd2 =
      ((load_artifacts resolve mk1 memo p1 cd1).1,
       (load_artifacts resolve mk1 memo p1 cd1).2) := by
  have hl := load_artifacts_lookup resolve mk1 memo p1 cd1
  set r := load_artifacts resolve mk1 memo p1 cd1 with hr
  unfold load_artifacts
  simp only [hres]
  rw [hl]

/-- Witness for C9: two loads of the same absolute path, the second with a
different on-disk state and a different cache directory argument. -/
theorem c9_memoized_witness :
    load_artifacts (fun s => s) (fun _ _ => (⟨[], "/c2", "/t"⟩ : Manager))
        (load_artifacts (fun s => s) (fun _ _ => (⟨[], "/c1", "/t"⟩ : Manager))
          [] ("/abs/A.toml") none).1 ("/abs/A.toml") (some ("/elsewhere")) =
      ((load_artifacts (fun s => s)
          (fun _ _ => (⟨[], "/c1", "/t"⟩ : Manager)) [] ("/abs/A.toml") none).1,
       (load_artifacts (fun s => s)
          (fun _ _ => (⟨[], "/c1", "/t"⟩ : Manager)) [] ("/abs/A.toml") none).2) :=
  c9_memoized (fun s => s) (fun _ _ => ⟨[], "/c1", "/t"⟩)
    (fun _ _ => ⟨[], "/c2", "/t"⟩) [] ("/abs/A.toml") ("/abs/A.toml") none
    (some ("/elsewhere")) rfl

end FetchArtifacts
